import Mathlib

/-!
Shallow embedding of the hybrid task-attribute extraction pipeline of the
Task-Manager-for-Slack-bot repository, covering the parts referenced by the
frozen claims:

* `src/models/task.py` — the static vocabulary (`Task.PRIORITY_KEYWORDS`,
  `Task.CONFIDENCE`, `Task.URGENCY_LEVELS`, `Task.CATEGORY_KEYWORDS`);
* `src/utils/text_parser.py` — the rule-based extractor (`TextParser`);
* `src/models/ai/validator.py` — the validator/reconciler (`ResultValidator`);
* `src/models/ai/ensemble.py` — the embedding similarity ensemble
  (`EnsembleModel`).

Python `datetime.date` values are modelled by a simple year/month/day
structure together with the standard civil-calendar day numbering, so that
`date₁ - date₂` (in days), `date + timedelta(days = n)`, `weekday()` and
`calendar.monthrange` have executable counterparts.  Python string values
are Lean `String`s; `str.__contains__` is an executable substring check on
the underlying character lists.  Confidence scores are rational numbers.

Functions that may raise in Python return `Option`/`Except` here; the
callers propagate failure exactly where the Python call sites would let an
exception escape.
-/

namespace TaskBot

/-! ## Character/string utilities (models of Python `in`, `replace`, …) -/

/-- Model of Python `needle in hay` (contiguous substring test) on char lists. -/
def charsContain (needle : List Char) : List Char → Bool
  | [] => needle.isEmpty
  | c :: rest => needle.isPrefixOf (c :: rest) || charsContain needle rest

/-- Model of Python `needle in hay` for strings. -/
def containsSubstr (hay needle : String) : Bool :=
  charsContain needle.data hay.data

/-- Structural model of Python `str.split(sep)` for a nonempty separator
(non-overlapping, left to right).  The fuel argument starts at the text
length and decreases once per examined character, so it never runs out. -/
def splitAux (sep : List Char) : Nat → List Char → List Char → List (List Char)
  | 0, _, acc => [acc.reverse]
  | _ + 1, [], acc => [acc.reverse]
  | fuel + 1, c :: rest, acc =>
    if sep.isPrefixOf (c :: rest) then
      acc.reverse :: splitAux sep fuel ((c :: rest).drop sep.length) []
    else splitAux sep fuel rest (c :: acc)

/-- Python `s.split(sep)` (nonempty `sep`). -/
def splitOnStr (s sep : String) : List String :=
  (splitAux sep.data s.data.length s.data []).map String.mk

/-- Structural model of Python `str.replace(pat, sub)` for a nonempty
pattern (all non-overlapping occurrences, left to right), fuelled by the
text length. -/
def replaceAux (pat sub : List Char) : Nat → List Char → List Char
  | 0, cs => cs
  | _ + 1, [] => []
  | fuel + 1, c :: rest =>
    if pat.isPrefixOf (c :: rest) then
      sub ++ replaceAux pat sub fuel ((c :: rest).drop pat.length)
    else c :: replaceAux pat sub fuel rest

/-- Python `s.replace(pat, sub)` (nonempty `pat`). -/
def replaceStr (s pat sub : String) : String :=
  ⟨replaceAux pat.data sub.data s.data.length s.data⟩

def trimChars (cs : List Char) : List Char :=
  ((cs.dropWhile Char.isWhitespace).reverse.dropWhile Char.isWhitespace).reverse

/-- Python `str.strip()`. -/
def trimStr (s : String) : String := ⟨trimChars s.data⟩

/-- Python `str.lower()` (ASCII letters; the keyword vocabularies contain no
other cased characters). -/
def lowerStr (s : String) : String := ⟨s.data.map Char.toLower⟩

/-- Python `sep.join(l)`. -/
def joinSep (sep : String) : List String → String
  | [] => ""
  | [x] => x
  | x :: y :: xs => x ++ sep ++ joinSep sep (y :: xs)

/-! ## Calendar dates

Model of Python `datetime.date` restricted to what the pipeline uses:
construction, validity, subtraction (in days), `+ timedelta(days = n)`,
`weekday()` and `calendar.monthrange(y, m)[1]`. -/

structure Date where
  year : Nat
  month : Nat
  day : Nat
deriving DecidableEq, Repr

def isLeapYear (y : Nat) : Bool :=
  y % 4 = 0 && (y % 100 ≠ 0 || y % 400 = 0)

/-- `calendar.monthrange(y, m)[1]`: number of days in the month. -/
def daysInMonth (y m : Nat) : Nat :=
  if m = 2 then (if isLeapYear y then 29 else 28)
  else if m = 4 || m = 6 || m = 9 || m = 11 then 30
  else 31

/-- A calendar date accepted by `datetime.date(y, m, d)`. -/
def Date.valid (d : Date) : Bool :=
  1 ≤ d.year && d.year ≤ 9999 && 1 ≤ d.month && d.month ≤ 12 &&
    1 ≤ d.day && d.day ≤ daysInMonth d.year d.month

/-- Days since 1970-01-01 (civil-from-days algorithm); subtraction of two
Python dates in days equals subtraction of their `toDays` numbers. -/
def Date.toDays (date : Date) : Int :=
  let y : Int := if date.month ≤ 2 then (date.year : Int) - 1 else (date.year : Int)
  let m : Int := date.month
  let d : Int := date.day
  let era : Int := Int.fdiv y 400
  let yoe : Int := y - era * 400
  let mp : Int := if m > 2 then m - 3 else m + 9
  let doy : Int := Int.fdiv (153 * mp + 2) 5 + d - 1
  let doe : Int := yoe * 365 + Int.fdiv yoe 4 - Int.fdiv yoe 100 + doy
  era * 146097 + doe - 719468

/-- Inverse of `Date.toDays` (days-to-civil algorithm). -/
def Date.ofDays (z0 : Int) : Date :=
  let z : Int := z0 + 719468
  let era : Int := Int.fdiv z 146097
  let doe : Int := z - era * 146097
  let yoe : Int :=
    Int.fdiv (doe - Int.fdiv doe 1460 + Int.fdiv doe 36524 - Int.fdiv doe 146096) 365
  let y : Int := yoe + era * 400
  let doy : Int := doe - (365 * yoe + Int.fdiv yoe 4 - Int.fdiv yoe 100)
  let mp : Int := Int.fdiv (5 * doy + 2) 153
  let d : Int := doy - Int.fdiv (153 * mp + 2) 5 + 1
  let m : Int := if mp < 10 then mp + 3 else mp - 9
  let yy : Int := if m ≤ 2 then y + 1 else y
  { year := yy.toNat, month := m.toNat, day := d.toNat }

/-- Python `date + timedelta(days = n)`. -/
def Date.addDays (d : Date) (n : Int) : Date :=
  Date.ofDays (d.toDays + n)

/-- Python `date.weekday()`: Monday = 0 … Sunday = 6 (1970-01-01 was a Thursday). -/
def Date.weekday (d : Date) : Nat :=
  ((d.toDays + 3).emod 7).toNat

def padTwo (n : Nat) : String :=
  if n < 10 then "0" ++ toString n else toString n

/-- Python `date.strftime('%Y-%m-%d')` (year printed unpadded, as glibc does). -/
def Date.format (d : Date) : String :=
  toString d.year ++ "-" ++ padTwo d.month ++ "-" ++ padTwo d.day

/-! ### `datetime.strptime(s, "%Y-%m-%d")`

CPython's `_strptime` compiles the format to the anchored regex
`\d\d\d\d-(1[0-2]|0[1-9]|[1-9])-(3[01]|[12]\d|0[1-9]|[1-9])` with no
residue allowed, then `datetime(...)` validates the day against the month
length.  Because both separators are fixed non-digit characters, this is
equivalent to: exactly three dash-separated all-digit fields of lengths
4 / 1-2 / 1-2 with month in 1..12, day in 1..31, and the calendar check. -/

def allDigits (s : String) : Bool :=
  !s.data.isEmpty && s.data.all Char.isDigit

def natOfDigits (s : String) : Nat :=
  s.data.foldl (fun acc c => acc * 10 + (c.toNat - 48)) 0

/-- `datetime.strptime(s, '%Y-%m-%d').date()`, or `none` on `ValueError`. -/
def parseYMD (s : String) : Option Date :=
  match splitOnStr s "-" with
  | [ys, ms, ds] =>
    if allDigits ys && ys.length = 4 && allDigits ms && ms.length ≤ 2 &&
        allDigits ds && ds.length ≤ 2 then
      let d : Date := { year := natOfDigits ys, month := natOfDigits ms, day := natOfDigits ds }
      if d.valid then some d else none
    else none
  | _ => none

/-! ## `src/models/task.py` — static vocabulary and constants -/

namespace Task

def PRIORITY_HIGH : String := "高"
def PRIORITY_MEDIUM : String := "中"
def PRIORITY_LOW : String := "低"

/-- `Task.PRIORITY_KEYWORDS` (insertion order preserved). -/
def PRIORITY_KEYWORDS : List (String × List String) :=
  [(PRIORITY_HIGH,
    ["重要", "急ぎ", "必須", "絶対", "今すぐ", "かなり", "急いで", "やばい", "早く",
     "至急", "即時", "緊急", "すぐ"]),
   (PRIORITY_MEDIUM, ["なるべく", "できれば", "そろそろ", "準備", "確認", "検討"]),
   (PRIORITY_LOW, ["余裕", "ゆっくり", "暇なとき", "時間があれば", "後で"])]

/-- `Task.CONFIDENCE["BASE"]` = 0.5. -/
def CONFIDENCE_BASE : ℚ := mkRat 5 10
/-- `Task.CONFIDENCE["INCREMENT"]` = 0.1. -/
def CONFIDENCE_INCREMENT : ℚ := mkRat 1 10
/-- `Task.CONFIDENCE["MAX"]` = 1.0. -/
def CONFIDENCE_MAX : ℚ := 1
/-- `Task.CONFIDENCE["THRESHOLD"]` = 0.3. -/
def CONFIDENCE_THRESHOLD : ℚ := mkRat 3 10
/-- `Task.CONFIDENCE["TITLE"]` = 0.8. -/
def CONFIDENCE_TITLE : ℚ := mkRat 8 10

/-- One row of `Task.URGENCY_LEVELS`; `days = none` models `float('inf')`. -/
structure UrgencyLevel where
  name : String
  days : Option Int
  priority : String
  confidence : ℚ
deriving DecidableEq, Repr

/-- `Task.URGENCY_LEVELS` in dict insertion order. -/
def URGENCY_LEVELS : List UrgencyLevel :=
  [⟨"期限切れ", some (-1), PRIORITY_HIGH, CONFIDENCE_MAX⟩,
   ⟨"今日まで", some 0, PRIORITY_HIGH, mkRat 9 10⟩,
   ⟨"明日まで", some 1, PRIORITY_HIGH, mkRat 9 10⟩,
   ⟨"緊急", some 3, PRIORITY_HIGH, mkRat 8 10⟩,
   ⟨"要注意", some 7, PRIORITY_HIGH, mkRat 7 10⟩,
   ⟨"注意", some 14, PRIORITY_MEDIUM, mkRat 6 10⟩,
   ⟨"余裕あり", none, PRIORITY_LOW, mkRat 5 10⟩]

/-- `days <= info["days"]` (with `float('inf')` always satisfied). -/
def urgencyMatches (days : Int) (bound : Option Int) : Bool :=
  match bound with
  | none => true
  | some b => days ≤ b

/-- `Task.CATEGORY_KEYWORDS` (insertion order preserved). -/
def CATEGORY_KEYWORDS : List (String × List String) :=
  [("数学", ["計算", "数式", "証明", "微分", "積分", "線形代数", "確率論"]),
   ("統計学", ["統計", "確率", "分布", "標本", "検定", "回帰分析", "データ分析"]),
   ("機械学習", ["ML", "AI", "学習", "モデル", "予測", "ニューラルネットワーク", "深層学習"]),
   ("データサイエンス", ["データ分析", "可視化", "前処理", "特徴量", "パイプライン"]),
   ("開発", ["フロントエンド", "バックエンド", "API", "デプロイ", "サーバー", "フレームワーク",
     "コード", "プログラム", "開発", "実装", "デバッグ", "アルゴリズム", "データベース", "DB",
     "プログラミング"]),
   ("インフラ", ["クラウド", "AWS", "Docker", "CI/CD", "システム構築"]),
   ("研究", ["研究", "論文", "実験", "検証", "提案", "論文執筆", "論文校正", "論文投稿",
     "論文査読", "論文審議", "論文審議意見", "論文審議結果"]),
   ("インターン", ["業務", "タスク", "報告", "インターン", "勤務"]),
   ("キャリア", ["就活", "面接", "ES", "企業分析", "イベント"]),
   ("提出物", ["課題", "レポート", "授業", "演習", "宿題", "提出"]),
   ("ミーティング", ["MTG", "打ち合わせ", "相談", "報告会", "発表"])]

/-- `Task.VALID_CATEGORIES`. -/
def VALID_CATEGORIES : List String := CATEGORY_KEYWORDS.map Prod.fst

end Task

/-- Python truthiness of an optional string (`None` and `""` are falsy). -/
def isTruthy : Option String → Bool
  | none => false
  | some s => !s.data.isEmpty

/-! ## `src/models/ai/validator.py` — `ResultValidator` -/

namespace ResultValidator

/-- The per-field confidence sub-dict of a rule-based result
(`rule_based["confidence"]`), as produced by `TextParser._rule_based_analysis`. -/
structure Confidences where
  title : ℚ
  due_date : ℚ
  priority : ℚ
  category : ℚ
deriving Repr

/-- A rule-based result dict. `_rule_based_analysis` always emits all keys,
with `None` for missing values, so every key is present here as an `Option`. -/
structure RuleBased where
  title : Option String
  due_date : Option String
  priority : Option String
  category : Option String
  confidence : Confidences
deriving Repr

/-- An AI result dict as consumed by `ResultValidator` (a single overall
`confidence` number, per-field values for `category` and `priority`). -/
structure AiResult where
  category : Option String
  priority : Option String
  confidence : ℚ
deriving Repr

/-- The in-flight `validated` dict between the validator's stages. -/
structure Validated where
  title : Option String
  due_date : Option String
  priority : String
  category : Option String
deriving Repr

/-- The `priority_mapping.get(priority, Task.PRIORITY_MEDIUM)` lookup. -/
def priorityMapping (s : String) : String :=
  if s = "高" then Task.PRIORITY_HIGH
  else if s = "中" then Task.PRIORITY_MEDIUM
  else if s = "低" then Task.PRIORITY_LOW
  else if s = "緊急" then Task.PRIORITY_HIGH
  else if s = "通常" then Task.PRIORITY_MEDIUM
  else if s = "低め" then Task.PRIORITY_LOW
  else Task.PRIORITY_MEDIUM

/-- `ResultValidator._validate_basic_fields`. -/
def validateBasicFields (rb : RuleBased) (ai : Option AiResult) : Validated :=
  -- title (required; placeholder when missing)
  let title : Option String :=
    if isTruthy rb.title then rb.title else some "無題のタスク"
  -- due date: kept only when `datetime.strptime(due_date, "%Y-%m-%d")` succeeds
  let due_date : Option String :=
    if isTruthy rb.due_date && (parseYMD (rb.due_date.getD "")).isSome
    then rb.due_date else none
  -- priority: keyword scan over the (always truthy) result title overrides it
  let titleLower := lowerStr (title.getD "")
  let p0 : Option String :=
    match Task.PRIORITY_KEYWORDS.find?
        (fun pk => pk.2.any (fun kw => containsSubstr titleLower kw)) with
    | some pk => some pk.1
    | none => rb.priority
  let p1 : String :=
    if isTruthy p0 then priorityMapping (p0.getD "")
    else match ai with
      | some a => if isTruthy a.priority then priorityMapping (a.priority.getD "")
                  else Task.PRIORITY_MEDIUM
      | none => Task.PRIORITY_MEDIUM
  let priority : String :=
    if p1 = Task.PRIORITY_HIGH || p1 = Task.PRIORITY_MEDIUM || p1 = Task.PRIORITY_LOW
    then p1 else Task.PRIORITY_MEDIUM
  -- category: rule value if valid, else keyword scan over the rule title,
  -- else the AI value if valid
  let category : Option String :=
    if rb.category.any (fun c => Task.VALID_CATEGORIES.contains c) then rb.category
    else if isTruthy rb.title then
      let rbTitleLower := lowerStr (rb.title.getD "")
      (Task.CATEGORY_KEYWORDS.find?
        (fun ck => ck.2.any (fun kw => containsSubstr rbTitleLower (lowerStr kw)))).map Prod.fst
    else match ai with
      | some a => if a.category.any (fun c => Task.VALID_CATEGORIES.contains c)
                  then a.category else none
      | none => none
  { title := title, due_date := due_date, priority := priority, category := category }

/-- The two per-field selection targets of `_select_high_confidence_results`. -/
inductive Field
  | category
  | priority
deriving DecidableEq, Repr

def RuleBased.fieldVal (rb : RuleBased) : Field → Option String
  | .category => rb.category
  | .priority => rb.priority

def RuleBased.fieldConf (rb : RuleBased) : Field → ℚ
  | .category => rb.confidence.category
  | .priority => rb.confidence.priority

def AiResult.fieldVal (a : AiResult) : Field → Option String
  | .category => a.category
  | .priority => a.priority

def Validated.getField (v : Validated) : Field → Option String
  | .category => v.category
  | .priority => some v.priority

def Validated.setField (v : Validated) : Field → String → Validated
  | .category, s => { v with category := some s }
  | .priority, s => { v with priority := s }

/-- `ai_result.get("confidence", 0) if ai_result else 0`. -/
def aiConfOf : Option AiResult → ℚ
  | some a => a.confidence
  | none => 0

/-- `ai_result.get(field) if ai_result else None`. -/
def aiValOf : Option AiResult → Field → Option String
  | some a, f => a.fieldVal f
  | none, _ => none

/-- `ResultValidator._select_high_confidence_results`. -/
def selectHighConfidence (validated : Validated) (rb : RuleBased)
    (ai : Option AiResult) : Validated :=
  let v0 := { validated with title := rb.title }
  let aiConf : ℚ := aiConfOf ai
  let step : Validated → Field → Validated := fun v f =>
    let ruleValue := rb.fieldVal f
    let aiValue := aiValOf ai f
    let rc := rb.fieldConf f
    if rc > aiConf && isTruthy ruleValue then v.setField f (ruleValue.getD "")
    else if isTruthy aiValue && aiConf > Task.CONFIDENCE_THRESHOLD then
      v.setField f (aiValue.getD "")
    else v
  step (step v0 .category) .priority

/-- The overdue warning emitted by `_validate_deadline_priority`. -/
def overdueMsg (days : Int) (current : String) : String :=
  "⚠️ 期限切れ（" ++ toString days.natAbs ++ "日経過）のため、優先度を「" ++
    current ++ "」から「" ++ Task.PRIORITY_HIGH ++ "」に変更しました"

/-- The adjustment warning emitted by `_validate_deadline_priority`. -/
def adjustMsg (level : Task.UrgencyLevel) (days : Int) (current : String) : String :=
  "⚠️ " ++ level.name ++ "（残り" ++ toString days ++ "日）のため、優先度を「" ++
    current ++ "」から「" ++ level.priority ++ "」に調整しました"

/-- `ResultValidator._validate_deadline_priority` (returned as
`(priority, warnings)`).  `today` models `datetime.now().date()`. -/
def validateDeadlinePriority (today : Date) (due : String) (current : String) :
    String × List String :=
  match parseYMD due with
  | none => (current, ["⚠️ 期限の形式が正しくありません"])
  | some d =>
    let days : Int := d.toDays - today.toDays
    if days < 0 then (Task.PRIORITY_HIGH, [overdueMsg days current])
    else
      match Task.URGENCY_LEVELS.find? (fun l => Task.urgencyMatches days l.days) with
      | some l =>
        if l.priority ≠ current then (l.priority, [adjustMsg l days current])
        else (current, [])
      | none => (current, [])

/-- `ResultValidator._check_consistency`. -/
def checkConsistency (today : Date) (v : Validated) : List String :=
  let w1 : List String :=
    if isTruthy v.title then [] else ["⚠️ タイトルが設定されていません"]
  let w2 : List String :=
    if isTruthy v.due_date then
      match parseYMD (v.due_date.getD "") with
      | some d =>
        let days : Int := d.toDays - today.toDays
        let wa : List String :=
          if days < 0 then
            ["⚠️ このタスクは期限切れです（" ++ toString days.natAbs ++ "日経過）"]
          else if days ≤ 3 then
            ["⚠️ 期限が近づいています（残り" ++ toString days ++ "日）"]
          else []
        let wb : List String :=
          match Task.URGENCY_LEVELS.find? (fun l => Task.urgencyMatches days l.days) with
          | some l =>
            if v.priority ≠ l.priority then
              ["⚠️ " ++ l.name ++ "（残り" ++ toString days ++ "日）ですが、優先度が「" ++
                l.priority ++ "」になっていません"]
            else []
          | none => []
        wa ++ wb
      | none => ["⚠️ 期限の形式が正しくありません"]
    else ["ℹ️ 期限が設定されていません"]
  let w3 : List String :=
    if isTruthy v.category then [] else ["ℹ️ カテゴリが設定されていません"]
  w1 ++ w2 ++ w3

/-- The final record returned by `ResultValidator.validate_results`. -/
structure FinalResult where
  title : Option String
  due_date : Option String
  priority : String
  category : Option String
  warnings : List String
deriving Repr

/-- `ResultValidator.validate_results`. -/
def validateResults (today : Date) (rb : RuleBased) (ai : Option AiResult) :
    FinalResult :=
  let basic := validateBasicFields rb ai
  let sel := selectHighConfidence basic rb ai
  if isTruthy sel.due_date then
    let pw := validateDeadlinePriority today (sel.due_date.getD "") sel.priority
    let v2 := { sel with priority := pw.1 }
    { title := v2.title, due_date := v2.due_date, priority := v2.priority,
      category := v2.category, warnings := pw.2 ++ checkConsistency today v2 }
  else
    { title := sel.title, due_date := sel.due_date, priority := sel.priority,
      category := sel.category, warnings := checkConsistency today sel }

end ResultValidator

/-! ## `src/utils/text_parser.py` — `TextParser` (rule-based extractor) -/

namespace TextParser

/-- `TextParser.__init__`: `self.category_keywords` (note: this is the
parser's own 5-category dict, distinct from `Task.CATEGORY_KEYWORDS`). -/
def categoryKeywords : List (String × List String) :=
  [("数学", ["計算", "数式", "証明", "微分", "積分", "代数", "幾何"]),
   ("統計学", ["統計", "確率", "分布", "標本", "検定", "推定"]),
   ("機械学習", ["ML", "AI", "学習", "モデル", "予測", "分類"]),
   ("理論", ["理論", "原理", "定理", "公理", "法則"]),
   ("プログラミング", ["コード", "プログラム", "開発", "実装", "デバッグ"])]

/-- `TextParser.__init__`: `self.priority_keywords`. -/
def priorityKeywords : List (String × List String) :=
  [("高", ["重要", "急ぎ", "必須", "絶対", "今すぐ", "即時"]),
   ("中", ["なるべく", "できれば", "そろそろ", "近いうち"]),
   ("低", ["余裕", "時間がある", "ゆっくり"])]

/-- `TextParser._parse_date` (static): strict `%Y-%m-%d` parse-and-reformat,
returning the input unchanged on `ValueError`. -/
def parseDateStatic (s : String) : String :=
  match parseYMD s with
  | some d => d.format
  | none => s

structure CategoryResult where
  category : String
  remaining : String
  confidence : ℚ
deriving Repr

/-- `TextParser._extract_category`.  `Except.error ()` models the uncaught
`ValueError` that `max(matched_keywords.items(), ...)` raises on an empty
dict: the guard reads `if not matched_keywords:`, so the `max`-based branch
runs exactly when no keyword matched (raising before any count is used),
while a nonempty `matched_keywords` falls through to `return None`.  The
keyword counts therefore never influence the result and only the emptiness
of the match set is modelled. -/
def extractCategory (text : String) : Except Unit (Option CategoryResult) :=
  match categoryKeywords.find? (fun ck => containsSubstr text ck.1) with
  | some ck => .ok (some ⟨ck.1, replaceStr text ck.1 "", 1⟩)
  | none =>
    if categoryKeywords.any (fun ck => ck.2.any (fun kw => containsSubstr text kw)) then
      .ok none
    else
      .error ()

structure PriorityEstimate where
  priority : String
  confidence : ℚ
deriving Repr

structure PriorityResult where
  priority : String
  remaining : String
  confidence : ℚ
  scores : List (String × ℚ)
deriving Repr

/-- `priority_scores[label] += amt` (no-op when the key is absent, in which
case the Python `KeyError` is swallowed by the surrounding `except`). -/
def bumpScore (scores : List (String × ℚ)) (label : String) (amt : ℚ) :
    List (String × ℚ) :=
  scores.map (fun p => if p.1 = label then (p.1, p.2 + amt) else p)

/-- Inner keyword loop of `_extract_priority` step 2: each matched keyword
adds 0.4 to its level and is removed from the working text. -/
def kwInner (label : String) : List String → String → List (String × ℚ) →
    String × List (String × ℚ)
  | [], t, sc => (t, sc)
  | kw :: kws, t, sc =>
    if containsSubstr t kw then
      kwInner label kws (replaceStr t kw "") (bumpScore sc label (mkRat 4 10))
    else kwInner label kws t sc

/-- Outer keyword loop of `_extract_priority` step 2. -/
def kwLoop : List (String × List String) → String → List (String × ℚ) →
    String × List (String × ℚ)
  | [], t, sc => (t, sc)
  | (lbl, kws) :: rest, t, sc =>
    let r := kwInner lbl kws t sc
    kwLoop rest r.1 r.2

/-- Python `max(items, key=lambda x: x[1])`: first item with maximal score. -/
def firstMaxBySnd (x : String × ℚ) (xs : List (String × ℚ)) : String × ℚ :=
  xs.foldl (fun best y => if y.2 > best.2 then y else best) x

/-- `TextParser._extract_priority`.  `today` models
`datetime.now().replace(hour=0, ...)`; `dateInfo` models
`date_info.get("date")` (`none` when no dict or no date was passed);
`aiEstimate` models `self.ai_inference.estimate_priority` (`none` when
`self.ai_inference` is unset, as in the rule-based pipeline). -/
def extractPriority (today : Date) (aiEstimate : Option (String → PriorityEstimate))
    (text : String) (dateInfo : Option String) : PriorityResult :=
  let originalText := text
  let scores0 : List (String × ℚ) := [("高", 0), ("中", mkRat 3 10), ("低", 0)]
  -- 1. deadline-derived bump
  let scores1 : List (String × ℚ) :=
    if isTruthy dateInfo then
      match parseYMD (dateInfo.getD "") with
      | some d =>
        let days : Int := d.toDays - today.toDays
        if days ≤ 3 then bumpScore scores0 "高" (mkRat 4 10)
        else if days ≤ 7 then bumpScore scores0 "中" (mkRat 3 10)
        else bumpScore scores0 "低" (mkRat 2 10)
      | none => scores0   -- ValueError is caught and logged
    else scores0
  -- 2. keyword bumps (mutating the working text)
  let ts := kwLoop priorityKeywords text scores1
  -- 3. AI bump on the keyword-stripped text
  let scores3 : List (String × ℚ) :=
    match aiEstimate with
    | some f =>
      let est := f ts.1
      if est.confidence > mkRat 3 10 then
        bumpScore ts.2 est.priority (est.confidence * mkRat 3 10)
      else ts.2
    | none => ts.2
  -- final decision
  let best : String × ℚ :=
    match scores3 with
    | x :: xs => firstMaxBySnd x xs
    | [] => ("中", mkRat 3 10)   -- unreachable: the score dict has three fixed keys
  let final : String × ℚ := if best.2 < mkRat 3 10 then ("中", mkRat 3 10) else best
  { priority := final.1, remaining := originalText, confidence := final.2,
    scores := scores3 }

structure FieldVal where
  value : Option String
  confidence : ℚ
deriving Repr

/-- The dict produced by `TextParser._parse_formatted_text`. -/
structure FormattedResult where
  title : Option String
  due_date : FieldVal
  priority : FieldVal
  category : FieldVal
deriving Repr

/-- One iteration of the component loop in `_parse_formatted_text`. -/
def applyComponent (r : FormattedResult) (comp0 : String) : FormattedResult :=
  let comp := trimStr comp0
  if containsSubstr comp "期限:" then
    let dv := parseDateStatic (trimStr ((splitOnStr comp "期限:").getD 1 ""))
    { r with due_date := ⟨some dv, 1⟩ }
  else if containsSubstr comp "優先度:" then
    { r with priority := ⟨some (trimStr ((splitOnStr comp "優先度:").getD 1 "")), 1⟩ }
  else if containsSubstr comp "分野:" then
    { r with category := ⟨some (trimStr ((splitOnStr comp "分野:").getD 1 "")), 1⟩ }
  else r

/-- `TextParser._parse_formatted_text` (pipe-separated formatted input). -/
def parseFormattedText (text : String) : FormattedResult :=
  let components := splitOnStr text "|"
  let r0 : FormattedResult :=
    { title := some (trimStr (components.headD "")),
      due_date := ⟨none, 0⟩, priority := ⟨none, 0⟩, category := ⟨none, 0⟩ }
  components.tail.foldl applyComponent r0

end TextParser

/-! ### `TextParser._extract_date`

The date regexes of `_extract_date` are embedded as character-list
matchers.  A matcher, applied to the suffix of the text starting at some
position, returns the unconsumed remainder together with the captured
groups; `re.search` is position-by-position scanning (leftmost match), the
bounded quantifier `\d{1,2}` is greedy with one-step backtracking over the
fixed non-digit separator that follows it, and the lazy gap `.*?` of the
combined deadline-marker pattern is a minimal-length scan that cannot cross
a newline. -/

/-- A compiled regex pattern: remainder after the match plus captured groups. -/
def Matcher := List Char → Option (List Char × List String)

/-- `\d{n}` (exactly `n` digits). -/
def grabExact : Nat → List Char → Option (List Char × List Char)
  | 0, cs => some ([], cs)
  | _ + 1, [] => none
  | n + 1, c :: cs =>
    if c.isDigit then (grabExact n cs).map (fun p => (c :: p.1, p.2)) else none

/-- The separator class matching a dash, a slash or `年`. -/
def isSep1 (c : Char) : Bool := c = '-' || c = '/' || c = '年'

/-- The separator class matching a dash, a slash or `月`. -/
def isSep2 (c : Char) : Bool := c = '-' || c = '/' || c = '月'

/-- `\d{1,2}` immediately followed by a separator from `sepOk` (greedy, with
regex backtracking from two digits to one); consumes the separator too. -/
def num12Sep (sepOk : Char → Bool) : List Char → Option (String × List Char)
  | a :: b :: c :: rest =>
    if a.isDigit && b.isDigit && sepOk c then some (String.mk [a, b], rest)
    else if a.isDigit && sepOk b then some (String.mk [a], c :: rest)
    else none
  | [a, b] => if a.isDigit && sepOk b then some (String.mk [a], []) else none
  | _ => none

/-- Trailing `\d{1,2}` (greedy; nothing after it can fail). -/
def num12End : List Char → Option (String × List Char)
  | a :: b :: rest =>
    if a.isDigit && b.isDigit then some (String.mk [a, b], rest)
    else if a.isDigit then some (String.mk [a], b :: rest)
    else none
  | [a] => if a.isDigit then some (String.mk [a], []) else none
  | [] => none

/-- The optional trailing `日?`. -/
def optNichi : List Char → List Char
  | c :: rest => if c = '日' then rest else c :: rest
  | [] => []

/-- The absolute-date pattern `\d{4} sep1 \d{1,2} sep2 \d{1,2} 日?` with
three capture groups (year, month, day digits). -/
def matchYMDpat : Matcher := fun cs =>
  match grabExact 4 cs with
  | some (yds, c :: r2) =>
    if isSep1 c then
      match num12Sep isSep2 r2 with
      | some (ms, r3) =>
        match num12End r3 with
        | some (ds, r4) => some (optNichi r4, [String.mk yds, ms, ds])
        | none => none
      | none => none
    else none
  | _ => none

/-- The month-day pattern `\d{1,2} sep2 \d{1,2} 日?` with two capture
groups (month, day digits). -/
def matchMDpat : Matcher := fun cs =>
  match num12Sep isSep2 cs with
  | some (ms, r2) =>
    match num12End r2 with
    | some (ds, r3) => some (optNichi r3, [ms, ds])
    | none => none
  | none => none

/-- A literal pattern such as `今日` or `今週末`. -/
def matchLit (s : String) : Matcher := fun cs =>
  if s.data.isPrefixOf cs then some (cs.drop s.data.length, []) else none

/-- `(\d+)日後`. -/
def matchNDays : Matcher := fun cs =>
  let ds := cs.takeWhile Char.isDigit
  if ds.isEmpty then none
  else
    match cs.drop ds.length with
    | c1 :: c2 :: rest =>
      if c1 = '日' && c2 = '後' then some (rest, [String.mk ds]) else none
    | _ => none

/-- `今週の(月|火|水|木|金|土|日)曜日` / `来週の(月|火|水|木|金|土|日)曜日`. -/
def matchWeekdayPat (pre : String) : Matcher := fun cs =>
  if pre.data.isPrefixOf cs then
    match cs.drop pre.data.length with
    | w :: a :: b :: rest =>
      if ['月', '火', '水', '木', '金', '土', '日'].contains w && a = '曜' && b = '日' then
        some (rest, [String.mk [w]])
      else none
    | _ => none
  else none

/-- The deadline-marker alternation `(まで|期限|締切|締め切り|〆切)`
(alternatives tried in order at each position). -/
def markerM : Matcher := fun cs =>
  match ["まで", "期限", "締切", "締め切り", "〆切"].find?
      (fun s => s.data.isPrefixOf cs) with
  | some s => some (cs.drop s.data.length, [])
  | none => none

/-- `re.search`: scan positions left to right, return
`(start, length, groups)` of the first match. -/
def searchFrom (m : Matcher) : List Char → Nat → Option (Nat × Nat × List String)
  | [], pos =>
    match m [] with
    | some (_, gs) => some (pos, 0, gs)
    | none => none
  | c :: t, pos =>
    match m (c :: t) with
    | some (rest, gs) => some (pos, (c :: t).length - rest.length, gs)
    | none => searchFrom m t (pos + 1)

/-- The lazy gap `.*?` followed by `m`: minimal offset at which `m` matches,
never crossing a newline (`.` does not match `\n`).  Returns
`(gap length, match length)`. -/
def lazyFind (m : Matcher) : List Char → Nat → Option (Nat × Nat)
  | [], k =>
    match m [] with
    | some _ => some (k, 0)
    | none => none
  | c :: t, k =>
    match m (c :: t) with
    | some (rest, _) => some (k, (c :: t).length - rest.length)
    | none => if c = '\n' then none else lazyFind m t (k + 1)

/-- Second alternative `D.*?P` of the combined pattern, anchored at the
current position; returns the total matched length. -/
def combinedAlt2 (p : Matcher) (cs : List Char) : Option Nat :=
  match markerM cs with
  | some (rest, _) =>
    match lazyFind p rest 0 with
    | some (k, plen) => some ((cs.length - rest.length) + k + plen)
    | none => none
  | none => none

/-- The combined pattern `(P.*?D|D.*?P)` anchored at the current position. -/
def combinedAt (p : Matcher) (cs : List Char) : Option Nat :=
  match p cs with
  | some (rest, _) =>
    match lazyFind markerM rest 0 with
    | some (k, mlen) => some ((cs.length - rest.length) + k + mlen)
    | none => combinedAlt2 p cs
  | none => combinedAlt2 p cs

/-- `re.search` of the combined pattern: leftmost `(start, length)`. -/
def combinedSearch (p : Matcher) : List Char → Nat → Option (Nat × Nat)
  | [], pos => (combinedAt p []).map (fun len => (pos, len))
  | c :: t, pos =>
    match combinedAt p (c :: t) with
    | some len => some (pos, len)
    | none => combinedSearch p t (pos + 1)

namespace TextParser

/-- One entry of the `patterns` dict of `_extract_date`: the compiled regex
and its date lambda (`none` models a `ValueError` raised inside it, e.g. an
invalid `.replace(day=...)`). -/
structure DatePattern where
  matcher : Matcher
  toDate : Date → List String → Option String

/-- `weekdays[...]` of `_get_days_until_weekday`. -/
def weekdayNum (w : String) : Nat :=
  if w = "月" then 0 else if w = "火" then 1 else if w = "水" then 2
  else if w = "木" then 3 else if w = "金" then 4 else if w = "土" then 5 else 6

/-- `TextParser._get_days_until_weekday`. -/
def daysUntilWeekday (now : Date) (w : String) : Int :=
  let ahead : Int := (weekdayNum w : Int) - (now.weekday : Int)
  if ahead ≤ 0 then ahead + 7 else ahead

/-- The `patterns` dict of `_extract_date`, in insertion order. -/
def datePatterns : List DatePattern :=
  [ -- YYYY-MM-DD / YYYY/MM/DD / YYYY年MM月DD日
   ⟨matchYMDpat, fun _ gs =>
     match gs with
     | [ys, ms, ds] => some (ys ++ "-" ++ padTwo (natOfDigits ms) ++ "-" ++
         padTwo (natOfDigits ds))
     | _ => none⟩,
   -- MM-DD / MM/DD / MM月DD日 (year inferred as the current year)
   ⟨matchMDpat, fun now gs =>
     match gs with
     | [ms, ds] => some (toString now.year ++ "-" ++ padTwo (natOfDigits ms) ++ "-" ++
         padTwo (natOfDigits ds))
     | _ => none⟩,
   ⟨matchLit "今日", fun now _ => some now.format⟩,
   ⟨matchLit "明日", fun now _ => some (now.addDays 1).format⟩,
   ⟨matchLit "明後日", fun now _ => some (now.addDays 2).format⟩,
   ⟨matchNDays, fun now gs =>
     match gs with
     | [ns] => some ((now.addDays (natOfDigits ns : Int)).format)
     | _ => none⟩,
   ⟨matchLit "今週末", fun now _ =>
     some ((now.addDays (5 - (now.weekday : Int))).format)⟩,
   ⟨matchLit "来週末", fun now _ =>
     some ((now.addDays (12 - (now.weekday : Int))).format)⟩,
   ⟨matchLit "今月末", fun now _ =>
     some (Date.format ⟨now.year, now.month, daysInMonth now.year now.month⟩)⟩,
   ⟨matchLit "来月末", fun now _ =>
     -- (now.replace(day=1) + 32 days).replace(day = monthrange((now+32).y, (now+32).m)[1])
     let base := (Date.mk now.year now.month 1).addDays 32
     let ref := now.addDays 32
     let dd := daysInMonth ref.year ref.month
     if dd ≤ daysInMonth base.year base.month then
       some (Date.format ⟨base.year, base.month, dd⟩)
     else none⟩,
   ⟨matchWeekdayPat "今週の", fun now gs =>
     match gs with
     | [w] => some ((now.addDays (daysUntilWeekday now w)).format)
     | _ => none⟩,
   ⟨matchWeekdayPat "来週の", fun now gs =>
     match gs with
     | [w] => some ((now.addDays (daysUntilWeekday now w + 7)).format)
     | _ => none⟩]

/-- The dict returned by `_extract_date` on success. -/
structure DateExtraction where
  date : String
  remaining : String
  confidence : ℚ
deriving Repr, DecidableEq

/-- First pattern of a list to produce a result. -/
def firstSome (f : α → Option β) : List α → Option β
  | [] => none
  | x :: xs =>
    match f x with
    | some r => some r
    | none => firstSome f xs

/-- One iteration of the first (deadline-marker) loop of `_extract_date`:
search the combined pattern, re-search the date pattern inside the matched
span, apply the date lambda, cut the span out of the text; confidence 1.0. -/
def tryPatternWithMarker (now : Date) (text : String) (p : DatePattern) :
    Option DateExtraction :=
  let cs := text.data
  (combinedSearch p.matcher cs 0).bind fun sl =>
    (searchFrom p.matcher ((cs.drop sl.1).take sl.2) 0).bind fun g =>
      (p.toDate now g.2.2).map fun ds =>
        { date := ds,
          remaining := trimStr (String.mk (cs.take sl.1 ++ cs.drop (sl.1 + sl.2))),
          confidence := 1 }

/-- One iteration of the second (no-marker) loop of `_extract_date`;
confidence 0.8. -/
def tryPatternPlain (now : Date) (text : String) (p : DatePattern) :
    Option DateExtraction :=
  let cs := text.data
  (searchFrom p.matcher cs 0).bind fun g =>
    (p.toDate now g.2.2).map fun ds =>
      { date := ds,
        remaining := trimStr (String.mk (cs.take g.1 ++ cs.drop (g.1 + g.2.1))),
        confidence := mkRat 8 10 }

/-- The first loop of `_extract_date` (patterns combined with a deadline
marker). -/
def extractDateWithMarker (now : Date) (text : String) : Option DateExtraction :=
  firstSome (tryPatternWithMarker now text) datePatterns

/-- The second loop of `_extract_date` (bare date patterns). -/
def extractDateNoMarker (now : Date) (text : String) : Option DateExtraction :=
  firstSome (tryPatternPlain now text) datePatterns

/-- `TextParser._extract_date`. -/
def extractDate (now : Date) (text : String) : Option DateExtraction :=
  match extractDateWithMarker now text with
  | some r => some r
  | none => extractDateNoMarker now text

end TextParser

/-! ## `src/models/ai/ensemble.py` — `EnsembleModel` -/

namespace EnsembleModel

/-- The three embedding provider families wrapped by the ensemble. -/
inductive Provider
  | laser
  | word2vec
  | fasttext
deriving DecidableEq, Repr

/-- The default weights `{k.lower(): v for k, v in Task.CONFIDENCE["MODEL_WEIGHTS"].items()}`
in dict insertion order. -/
def weights : List (Provider × ℚ) :=
  [(.laser, mkRat 5 10), (.word2vec, mkRat 3 10), (.fasttext, mkRat 2 10)]

/-- `EnsembleModel.get_similarity`.  A provider is modelled as
`Option (String → String → ℚ)`: `none` when `_load_model` fails (or the
provider's similarity call raises, which the method also swallows), `some f`
for a loaded provider.  The final Python line
`sum(similarities) / total_weight if similarities else 0.0` can only take
its `else` branch when `total_weight` is zero, which is already handled by
the fallback, so it is not a separate case here. -/
def getSimilarity (models : Provider → Option (String → String → ℚ))
    (t1 t2 : String) : ℚ :=
  let acc : ℚ × ℚ :=
    weights.foldl
      (fun acc pw =>
        match models pw.1 with
        | some f => (acc.1 + f t1 t2 * pw.2, acc.2 + pw.2)
        | none => acc)
      (0, 0)
  if acc.2 = 0 then mkRat 5 10 else acc.1 / acc.2

/-- Stable insertion into a descending-sorted list (equal keys keep their
original relative order, as Python's stable `sorted(..., reverse=True)`). -/
def insertDesc (key : α → ℚ) (x : α) : List α → List α
  | [] => [x]
  | y :: ys => if key y < key x then x :: y :: ys else y :: insertDesc key x ys

/-- Model of Python `sorted(l, key=key, reverse=True)` (stable). -/
def sortByDesc (key : α → ℚ) (l : List α) : List α :=
  l.foldl (fun acc x => insertDesc key x acc) []

/-- Python `max(d.values())` (0 on the unreachable empty dict). -/
def maxSnd : List (String × ℚ) → ℚ
  | [] => 0
  | x :: xs => xs.foldl (fun b y => if b < y.2 then y.2 else b) x.2

/-- Dict lookup `keywords[k]` in an association list. -/
def keywordsOf (l : List (String × List String)) (k : String) : List String :=
  ((l.find? (fun p => p.1 = k)).map Prod.snd).getD []

/-- The dict returned by `EnsembleModel.estimate_category`. -/
structure CategoryEstimate where
  categories : List String
  confidence : ℚ
  scores : List (String × ℚ)
deriving Repr, DecidableEq

/-- `EnsembleModel.estimate_category`.  The `explicit_categories`
comprehension iterates `Task.VALID_CATEGORIES` (= the keys of
`Task.CATEGORY_KEYWORDS` in order) and indexes the keyword dict, which is
the same as filtering the keyword list itself.  The `if not similarities`
guard is unreachable (the dict always has eleven entries). -/
def estimateCategory (models : Provider → Option (String → String → ℚ))
    (text : String) : CategoryEstimate :=
  let similarities : List (String × ℚ) :=
    Task.CATEGORY_KEYWORDS.map
      (fun ck => (ck.1, getSimilarity models text (joinSep " " ck.2)))
  let explicit : List String :=
    (Task.CATEGORY_KEYWORDS.filter
      (fun ck => containsSubstr text ck.1 ||
        ck.2.any (fun kw => containsSubstr text kw))).map Prod.fst
  let final : List String :=
    if !explicit.isEmpty then explicit.take 3
    else
      let high : List String :=
        ((sortByDesc Prod.snd similarities).filter
          (fun p => p.2 > Task.CONFIDENCE_THRESHOLD)).map Prod.fst
      let f2 := high.take 2
      if !f2.isEmpty then f2
      else
        match similarities with
        | x :: xs => [(TextParser.firstMaxBySnd x xs).1]
        | [] => []
  { categories := final, confidence := maxSnd similarities, scores := similarities }

/-- The dict returned by `EnsembleModel.estimate_priority`. -/
structure PriorityGuess where
  priority : String
  confidence : ℚ
  scores : List (String × ℚ)
deriving Repr

/-- `EnsembleModel.estimate_priority`. -/
def estimatePriority (models : Provider → Option (String → String → ℚ))
    (text : String) : PriorityGuess :=
  let sims : List (String × ℚ) :=
    [(Task.PRIORITY_HIGH,
      getSimilarity models text
        (joinSep " " (keywordsOf Task.PRIORITY_KEYWORDS Task.PRIORITY_HIGH))),
     (Task.PRIORITY_MEDIUM,
      getSimilarity models text
        (joinSep " " (keywordsOf Task.PRIORITY_KEYWORDS Task.PRIORITY_MEDIUM))),
     (Task.PRIORITY_LOW,
      getSimilarity models text
        (joinSep " " (keywordsOf Task.PRIORITY_KEYWORDS Task.PRIORITY_LOW)))]
  match sims with
  | x :: xs =>
    let best := TextParser.firstMaxBySnd x xs
    { priority := best.1, confidence := best.2, scores := sims }
  | [] => { priority := "低", confidence := 0, scores := [] }

end EnsembleModel

/-! ## Spec-side definition for the refinement comparison of claim C3 -/

/-- The category-extraction policy as the specification words it (claim C3),
written for comparison against `TextParser.extractCategory`: every category
with at least one matching keyword receives confidence
`min(BASE + matches × INCREMENT, MAX)` where `matches` counts its distinct
keywords occurring in the text, and all categories whose confidence reaches
`THRESHOLD` are retained (multi-label). -/
def specCategoryMultiLabel (text : String) : List (String × ℚ) :=
  (((TextParser.categoryKeywords.map
      (fun ck => (ck.1, (ck.2.filter (fun kw => containsSubstr text kw)).length))).filter
    (fun p => 0 < p.2)).map
      (fun p => (p.1, min (Task.CONFIDENCE_BASE + (p.2 : ℚ) * Task.CONFIDENCE_INCREMENT)
        Task.CONFIDENCE_MAX))).filter
    (fun p => Task.CONFIDENCE_THRESHOLD ≤ p.2)

/-! ## Helper lemmas -/

theorem isPrefixOf_append {n h t : List Char} (hp : n.isPrefixOf h = true) :
    n.isPrefixOf (h ++ t) = true := by
  induction n generalizing h with
  | nil => simp [List.isPrefixOf]
  | cons a n ih =>
    cases h with
    | nil => simp [List.isPrefixOf] at hp
    | cons b h =>
      simp only [List.cons_append, List.isPrefixOf, Bool.and_eq_true] at hp ⊢
      exact ⟨hp.1, ih hp.2⟩

theorem charsContain_append {n h t : List Char} (hc : charsContain n h = true) :
    charsContain n (h ++ t) = true := by
  induction h with
  | nil =>
    simp only [charsContain, List.isEmpty_iff] at hc
    subst hc
    cases t with
    | nil => simp [charsContain]
    | cons c cs => simp [charsContain, List.isPrefixOf]
  | cons c h ih =>
    simp only [charsContain, List.cons_append, Bool.or_eq_true] at hc ⊢
    rcases hc with hp | hc
    · exact Or.inl (isPrefixOf_append hp)
    · exact Or.inr (ih hc)

/-- If `needle` occurs in `s`, it occurs in `s ++ t`. -/
theorem containsSubstr_append_left {s t needle : String}
    (h : containsSubstr s needle = true) :
    containsSubstr (s ++ t) needle = true := by
  simpa [containsSubstr] using charsContain_append (t := t.data) h

/-- `kwInner` leaves text and scores unchanged when no keyword occurs. -/
theorem kwInner_no_match {label : String} {kws : List String} {t : String}
    {sc : List (String × ℚ)} (h : ∀ kw ∈ kws, containsSubstr t kw = false) :
    TextParser.kwInner label kws t sc = (t, sc) := by
  induction kws with
  | nil => rfl
  | cons kw kws ih =>
    have h0 : containsSubstr t kw = false := h kw (by simp)
    simp only [TextParser.kwInner, h0, Bool.false_eq_true, if_false]
    exact ih (fun k hk => h k (by simp [hk]))

/-- `kwLoop` leaves text and scores unchanged when no keyword occurs. -/
theorem kwLoop_no_match {pks : List (String × List String)} {t : String}
    {sc : List (String × ℚ)}
    (h : ∀ pk ∈ pks, ∀ kw ∈ pk.2, containsSubstr t kw = false) :
    TextParser.kwLoop pks t sc = (t, sc) := by
  induction pks with
  | nil => rfl
  | cons pk pks ih =>
    obtain ⟨lbl, kws⟩ := pk
    simp only [TextParser.kwLoop]
    rw [kwInner_no_match (h ⟨lbl, kws⟩ (by simp))]
    exact ih (fun q hq => h q (by simp [hq]))

/-! ## Claims -/

/-- C2: on a text containing no category keyword and no literal category
name, `TextParser._extract_category` does not return the empty result with
confidence 0 — it raises `ValueError` (the `max()` call on the empty match
dict behind the inverted `if not matched_keywords:` guard).  Evaluation of
the embedded code at the failing input `"hello"`. -/
theorem c2_category_extraction_raises :
    TextParser.extractCategory "hello" = Except.error () := rfl

/-- C10 counterexample: a deadline value that parses but is not zero-padded
is stored *normalized*, not verbatim, in the pipe-separated path, refuting
"any 期限: value — well-formed or not — is stored verbatim". -/
theorem c10_counterexample :
    (TextParser.parseFormattedText "x | 期限:2024-3-5").due_date =
      { value := some "2024-03-05", confidence := 1 } ∧
    ("2024-03-05" : String) ≠ "2024-3-5" := by
  exact ⟨rfl, by decide⟩

/-- C10 (amended): `TextParser._parse_date` is the identity on every string
that does not parse as `%Y-%m-%d`; in the pipe-separated formatted-text path
the 期限: value is stored with confidence 1.0 and no validation or warning —
verbatim when it fails to parse, zero-pad-normalized when it parses. -/
theorem c10_parse_date_identity (s : String) (h : parseYMD s = none) :
    TextParser.parseDateStatic s = s ∧
    (TextParser.parseFormattedText "レポート | 期限:2024-99-99").due_date =
      { value := some "2024-99-99", confidence := 1 } ∧
    (TextParser.parseFormattedText "レポート | 期限:2024-3-5").due_date =
      { value := some "2024-03-05", confidence := 1 } := by
  refine ⟨?_, rfl, rfl⟩
  simp [TextParser.parseDateStatic, h]

/-- Witness for C10: the amended theorem applied at `"notadate"`. -/
theorem c10_witness :
    TextParser.parseDateStatic "notadate" = "notadate" :=
  (c10_parse_date_identity "notadate" rfl).1

/-- C8 counterexample: `"hello"` contains no priority keyword and carries no
date signal, yet `TextParser._extract_priority` returns Medium (中) with
confidence 0.3 — not Low (低) with confidence BASE = 0.5 as claimed. -/
theorem c8_counterexample :
    TextParser.priorityKeywords.all
      (fun pk => pk.2.all (fun kw => !containsSubstr "hello" kw)) = true ∧
    (TextParser.extractPriority ⟨2024, 3, 25⟩ none "hello" none).priority = "中" ∧
    (TextParser.extractPriority ⟨2024, 3, 25⟩ none "hello" none).confidence = mkRat 3 10 ∧
    ¬((TextParser.extractPriority ⟨2024, 3, 25⟩ none "hello" none).priority = "低" ∧
      (TextParser.extractPriority ⟨2024, 3, 25⟩ none "hello" none).confidence =
        Task.CONFIDENCE_BASE) := by
  refine ⟨by decide, by decide, by decide, ?_⟩
  rintro ⟨hp, -⟩
  exact absurd hp (by decide)

/-- C8 (amended): when neither the priority-keyword signal nor the
date-derived urgency signal fires (and no AI inference is attached),
rule-based priority extraction returns Medium (中) with confidence 0.3 (the
default medium base score), the original text as remaining text, and the
untouched score table. -/
theorem c8_default_priority (today : Date) (text : String)
    (h : ∀ pk ∈ TextParser.priorityKeywords, ∀ kw ∈ pk.2,
      containsSubstr text kw = false) :
    TextParser.extractPriority today none text none =
      { priority := "中", remaining := text, confidence := mkRat 3 10,
        scores := [("高", 0), ("中", mkRat 3 10), ("低", 0)] } := by
  unfold TextParser.extractPriority
  rw [show (isTruthy none) = false from rfl]
  simp only [Bool.false_eq_true, if_false]
  rw [kwLoop_no_match h]
  rfl

/-- Witness for C8: the amended theorem applied at `"hello"`. -/
theorem c8_witness :
    TextParser.extractPriority ⟨2024, 3, 25⟩ none "hello" none =
      { priority := "中", remaining := "hello", confidence := mkRat 3 10,
        scores := [("高", 0), ("中", mkRat 3 10), ("低", 0)] } :=
  c8_default_priority ⟨2024, 3, 25⟩ "hello" (by decide)

/-- C6: the ensemble's weighted similarity is
`Σ(score × weight) / Σ(weight)` over the providers that loaded
successfully (weights renormalized over survivors), with the neutral
fallback 0.5 when zero providers are available. -/
theorem c6_weighted_similarity
    (models : EnsembleModel.Provider → Option (String → String → ℚ))
    (t1 t2 : String) :
    ((∀ p, models p = none) → EnsembleModel.getSimilarity models t1 t2 = mkRat 5 10) ∧
    ((∃ p, (models p).isSome) →
      EnsembleModel.getSimilarity models t1 t2 =
        (EnsembleModel.weights.filterMap
          (fun pw => (models pw.1).map (fun f => f t1 t2 * pw.2))).sum /
        ((EnsembleModel.weights.filter
          (fun pw => (models pw.1).isSome)).map Prod.snd).sum) := by
  cases hl : models .laser <;> cases hw : models .word2vec <;>
    cases hf : models .fasttext <;> constructor <;> intro hyp <;>
    first
    | (exfalso
       rcases hyp with ⟨p, hp⟩
       cases p <;> simp [hl, hw, hf] at hp
       done)
    | (exfalso
       first
       | (have hc := hyp .laser; rw [hl] at hc; exact Option.noConfusion hc)
       | (have hc := hyp .word2vec; rw [hw] at hc; exact Option.noConfusion hc)
       | (have hc := hyp .fasttext; rw [hf] at hc; exact Option.noConfusion hc))
    | (simp [EnsembleModel.getSimilarity, EnsembleModel.weights, hl, hw, hf,
        Rat.mkRat_eq_div]
       try norm_num
       try ring_nf)

/-- C7: with every embedding provider failed to load, `estimate_category`
and `estimate_priority` return defined fallback results: a nonempty category
list (at most three labels) with overall confidence 0.5, and the priority
label 高 with confidence 0.5; no exception escapes. -/
theorem c7_total_signal_loss (text : String) :
    (EnsembleModel.estimateCategory (fun _ => none) text).categories ≠ [] ∧
    (EnsembleModel.estimateCategory (fun _ => none) text).categories.length ≤ 3 ∧
    (EnsembleModel.estimateCategory (fun _ => none) text).confidence = mkRat 5 10 ∧
    (EnsembleModel.estimatePriority (fun _ => none) text).priority = "高" ∧
    (EnsembleModel.estimatePriority (fun _ => none) text).confidence = mkRat 5 10 := by
  have hg : ∀ a b : String, EnsembleModel.getSimilarity (fun _ => none) a b = mkRat 5 10 :=
    fun _ _ => rfl
  have hmain : ∀ e, Task.CATEGORY_KEYWORDS.filter
        (fun ck => containsSubstr text ck.1 ||
          ck.2.any (fun kw => containsSubstr text kw)) = e →
      EnsembleModel.estimateCategory (fun _ => none) text =
        { categories := if e.isEmpty then ["数学", "統計学"] else (e.map Prod.fst).take 3,
          confidence := mkRat 5 10,
          scores := Task.CATEGORY_KEYWORDS.map (fun ck => (ck.1, mkRat 5 10)) } := by
    intro e he
    unfold EnsembleModel.estimateCategory
    simp only [hg, he]
    cases e with
    | nil => decide
    | cons a as =>
      simp only [List.map_cons, List.isEmpty_cons, Bool.not_false, if_true, if_false,
        List.isEmpty_nil, Bool.not_true, EnsembleModel.CategoryEstimate.mk.injEq]
      exact ⟨by simp, by decide, trivial⟩
  rcases hE : Task.CATEGORY_KEYWORDS.filter
      (fun ck => containsSubstr text ck.1 ||
        ck.2.any (fun kw => containsSubstr text kw)) with _ | ⟨a, as⟩
  · have h := hmain [] hE
    rw [h]
    exact ⟨by simp, by simp, rfl, rfl, rfl⟩
  · have h := hmain (a :: as) hE
    rw [h]
    refine ⟨by simp, ?_, rfl, rfl, rfl⟩
    simp [List.length_take]

/-- C3 counterexample: on `"計算"` (one 数学 keyword, no literal category
name) the claimed multi-label policy retains 数学 with confidence
min(BASE + 1×INCREMENT, MAX) = 0.6 ≥ THRESHOLD, but `_extract_category`
returns no category at all: the keyword evidence is discarded. -/
theorem c3_counterexample :
    TextParser.extractCategory "計算" = Except.ok none ∧
    specCategoryMultiLabel "計算" = [("数学", mkRat 6 10)] := by
  constructor
  · rfl
  · have hfil : (TextParser.categoryKeywords.map
        (fun ck => (ck.1, (ck.2.filter (fun kw => containsSubstr "計算" kw)).length))).filter
        (fun p => 0 < p.2) = [("数学", 1)] := by decide
    unfold specCategoryMultiLabel
    rw [hfil]
    norm_num [Task.CONFIDENCE_BASE, Task.CONFIDENCE_INCREMENT, Task.CONFIDENCE_MAX,
      Task.CONFIDENCE_THRESHOLD, Rat.mkRat_eq_div, List.filter_cons, List.filter_nil]

/-- C3 (amended): rule-based category extraction is single-label name
matching only: the first category whose literal name occurs in the text is
returned with confidence 1.0 and its name removed from the remaining text;
with keyword-only evidence the extraction returns no category; with no
name and no keyword it raises `ValueError`.  The
min(BASE + matches×INCREMENT, MAX) / THRESHOLD multi-label policy is not
implemented. -/
theorem c3_single_label (text : String) :
    (∀ ck, TextParser.categoryKeywords.find?
        (fun c => containsSubstr text c.1) = some ck →
      TextParser.extractCategory text =
        Except.ok (some ⟨ck.1, replaceStr text ck.1 "", 1⟩)) ∧
    (TextParser.categoryKeywords.find? (fun c => containsSubstr text c.1) = none →
      (TextParser.categoryKeywords.any
          (fun c => c.2.any (fun kw => containsSubstr text kw)) = true →
        TextParser.extractCategory text = Except.ok none) ∧
      (TextParser.categoryKeywords.any
          (fun c => c.2.any (fun kw => containsSubstr text kw)) = false →
        TextParser.extractCategory text = Except.error ())) := by
  unfold TextParser.extractCategory
  refine ⟨fun ck hck => ?_, fun hn => ⟨fun ha => ?_, fun ha => ?_⟩⟩
  · rw [hck]
  · rw [hn, ha]
    rfl
  · rw [hn, ha]
    rfl

/-- Witness for C3: the amended theorem applied at `"数学の課題"`, whose
first matching category name is 数学. -/
theorem c3_witness :
    TextParser.extractCategory "数学の課題" =
      Except.ok (some ⟨"数学", replaceStr "数学の課題" "数学" "", 1⟩) :=
  (c3_single_label "数学の課題").1 ⟨"数学", ["計算", "数式", "証明", "微分", "積分",
    "代数", "幾何"]⟩ (by decide)

/-- Per-field characterization of `_select_high_confidence_results`. -/
theorem select_getField (v : ResultValidator.Validated)
    (rb : ResultValidator.RuleBased) (ai : Option ResultValidator.AiResult)
    (f : ResultValidator.Field) :
    (ResultValidator.selectHighConfidence v rb ai).getField f =
      (if decide (rb.fieldConf f > ResultValidator.aiConfOf ai) &&
          isTruthy (rb.fieldVal f) then
        some ((rb.fieldVal f).getD "")
      else if isTruthy (ResultValidator.aiValOf ai f) &&
          decide (ResultValidator.aiConfOf ai > Task.CONFIDENCE_THRESHOLD) then
        some ((ResultValidator.aiValOf ai f).getD "")
      else v.getField f) := by
  cases f <;>
    simp only [ResultValidator.selectHighConfidence, ResultValidator.Validated.getField,
      ResultValidator.Validated.setField, ResultValidator.RuleBased.fieldVal,
      ResultValidator.RuleBased.fieldConf] <;>
    split_ifs <;>
    simp_all [ResultValidator.Validated.getField, ResultValidator.Validated.setField]

/-- C4: in `_select_high_confidence_results`, for each of the fields
category and priority, the rule-based value is selected when its per-field
confidence exceeds the AI result's confidence, the AI value is selected
when the AI confidence is higher and exceeds THRESHOLD = 0.3, and an AI
result at or below THRESHOLD is never selected: the basic-validated value
persists unless the rule branch fires. -/
theorem c4_confidence_selection (v : ResultValidator.Validated)
    (rb : ResultValidator.RuleBased) (ai : Option ResultValidator.AiResult)
    (f : ResultValidator.Field) :
    (rb.fieldConf f > ResultValidator.aiConfOf ai → isTruthy (rb.fieldVal f) = true →
      (ResultValidator.selectHighConfidence v rb ai).getField f =
        some ((rb.fieldVal f).getD "")) ∧
    (∀ a, ai = some a → a.confidence > rb.fieldConf f →
      a.confidence > Task.CONFIDENCE_THRESHOLD → isTruthy (a.fieldVal f) = true →
      (ResultValidator.selectHighConfidence v rb ai).getField f =
        some ((a.fieldVal f).getD "")) ∧
    (ResultValidator.aiConfOf ai ≤ Task.CONFIDENCE_THRESHOLD →
      (ResultValidator.selectHighConfidence v rb ai).getField f =
        (if rb.fieldConf f > ResultValidator.aiConfOf ai ∧ isTruthy (rb.fieldVal f) = true
         then some ((rb.fieldVal f).getD "") else v.getField f)) := by
  rw [show ResultValidator.selectHighConfidence v rb ai =
    ResultValidator.selectHighConfidence v rb ai from rfl]
  refine ⟨fun h1 h2 => ?_, fun a ha h1 h2 h3 => ?_, fun h1 => ?_⟩
  · rw [select_getField, if_pos (by simp [h1, h2])]
  · subst ha
    rw [select_getField, if_neg, if_pos]
    · rfl
    · simp only [ResultValidator.aiValOf, ResultValidator.aiConfOf, h3,
        Bool.true_and, decide_eq_true_eq]
      exact h2
    · simp only [ResultValidator.aiConfOf, Bool.and_eq_true, decide_eq_true_eq]
      rintro ⟨hg, -⟩
      exact absurd hg (by linarith)
  · rw [select_getField]
    by_cases hc : rb.fieldConf f > ResultValidator.aiConfOf ai ∧
        isTruthy (rb.fieldVal f) = true
    · rw [if_pos (by simp [hc.1, hc.2]), if_pos hc]
    · rw [if_neg (by simpa [Bool.and_eq_true, decide_eq_true_eq] using hc),
        if_neg, if_neg hc]
      simp only [Bool.and_eq_true, decide_eq_true_eq]
      rintro ⟨-, hg⟩
      exact absurd hg (not_lt.mpr h1)

/-- Witness for C4: rule-based priority confidence 0.9 against AI confidence
0.4 — the rule-based priority 高 is selected. -/
theorem c4_witness :
    (ResultValidator.selectHighConfidence
      { title := some "t", due_date := none, priority := "中", category := none }
      { title := some "t", due_date := none, priority := some "高", category := none,
        confidence := ⟨mkRat 8 10, 0, mkRat 9 10, 0⟩ }
      (some { category := none, priority := some "低", confidence := mkRat 4 10 })).getField
      ResultValidator.Field.priority = some "高" :=
  (c4_confidence_selection
    { title := some "t", due_date := none, priority := "中", category := none }
    { title := some "t", due_date := none, priority := some "高", category := none,
      confidence := ⟨mkRat 8 10, 0, mkRat 9 10, 0⟩ }
    (some { category := none, priority := some "低", confidence := mkRat 4 10 })
    ResultValidator.Field.priority).1 (by decide) (by decide)

/-- `setField` never touches the due date. -/
theorem setField_due (v : ResultValidator.Validated) (f : ResultValidator.Field)
    (s : String) : (v.setField f s).due_date = v.due_date := by
  cases f <;> rfl

/-- `_select_high_confidence_results` never touches the due date. -/
theorem selectHighConfidence_due (v : ResultValidator.Validated)
    (rb : ResultValidator.RuleBased) (ai : Option ResultValidator.AiResult) :
    (ResultValidator.selectHighConfidence v rb ai).due_date = v.due_date := by
  unfold ResultValidator.selectHighConfidence
  dsimp only
  simp only [apply_ite ResultValidator.Validated.due_date, setField_due, ite_self]

/-- C5: when the rule-based due_date string is not a valid `YYYY-MM-DD`
date, `validate_results` returns a record whose due_date is absent,
accompanied by the deadline-field warning, and raises no exception (the
embedding is total and reaches the no-deadline branch). -/
theorem c5_invalid_due_date_dropped (today : Date)
    (rb : ResultValidator.RuleBased) (ai : Option ResultValidator.AiResult)
    (s : String) (hs : rb.due_date = some s) (hbad : parseYMD s = none) :
    (ResultValidator.validateResults today rb ai).due_date = none ∧
    "ℹ️ 期限が設定されていません" ∈
      (ResultValidator.validateResults today rb ai).warnings := by
  have hbasic : (ResultValidator.validateBasicFields rb ai).due_date = none := by
    simp only [ResultValidator.validateBasicFields, hs, Option.getD_some, hbad,
      Option.isSome_none, Bool.and_false, Bool.false_eq_true, if_false]
  have hdue : (ResultValidator.selectHighConfidence
      (ResultValidator.validateBasicFields rb ai) rb ai).due_date = none :=
    (selectHighConfidence_due _ _ _).trans hbasic
  unfold ResultValidator.validateResults
  dsimp only
  rw [hdue]
  simp only [isTruthy, Bool.false_eq_true, if_false]
  refine ⟨by trivial, ?_⟩
  unfold ResultValidator.checkConsistency
  dsimp only
  rw [hdue]
  simp only [isTruthy, Bool.false_eq_true, if_false]
  exact List.mem_append.mpr (Or.inl (List.mem_append.mpr (Or.inr (by simp))))

/-- Witness for C5: a concrete rule-based result with due date
`"2024-99-99"`. -/
theorem c5_witness :
    parseYMD "2024-99-99" = none ∧
    ((ResultValidator.validateResults ⟨2024, 3, 25⟩
        { title := some "課題", due_date := some "2024-99-99", priority := none,
          category := none,
          confidence := ⟨mkRat 8 10, mkRat 9 10, 0, 0⟩ } none).due_date = none ∧
      "ℹ️ 期限が設定されていません" ∈
        (ResultValidator.validateResults ⟨2024, 3, 25⟩
          { title := some "課題", due_date := some "2024-99-99", priority := none,
            category := none,
            confidence := ⟨mkRat 8 10, mkRat 9 10, 0, 0⟩ } none).warnings) :=
  ⟨by decide,
    c5_invalid_due_date_dropped ⟨2024, 3, 25⟩
      { title := some "課題", due_date := some "2024-99-99", priority := none,
        category := none, confidence := ⟨mkRat 8 10, mkRat 9 10, 0, 0⟩ }
      none "2024-99-99" rfl (by decide)⟩

/-- The first component of the adjust-or-keep decision of
`_validate_deadline_priority` is always the scanned level's priority. -/
theorem pickFst (nm : String) (b : Option Int) (c : ℚ) (p : String)
    (days : Int) (current : String) :
    (if p ≠ current then
        (p, [ResultValidator.adjustMsg ⟨nm, b, p, c⟩ days current])
      else (current, [])).1 = p := by
  by_cases hc : p = current
  · simp [hc]
  · simp [hc]

/-- For a non-overdue deadline, `_validate_deadline_priority` returns the
priority of the first urgency level whose bound covers the remaining days:
高 up to 7 days, 中 up to 14 days, 低 beyond. -/
theorem vdp_priority_nonneg (today : Date) (s current : String) (d : Date)
    (h : parseYMD s = some d) (h0 : 0 ≤ d.toDays - today.toDays) :
    (ResultValidator.validateDeadlinePriority today s current).1 =
      (if d.toDays - today.toDays ≤ 7 then "高"
       else if d.toDays - today.toDays ≤ 14 then "中" else "低") := by
  unfold ResultValidator.validateDeadlinePriority
  rw [h]
  dsimp only
  rw [if_neg (by omega)]
  have e1 : Task.urgencyMatches (d.toDays - today.toDays) (some (-1)) = false := by
    simp only [Task.urgencyMatches, decide_eq_false_iff_not]
    omega
  by_cases hA : d.toDays - today.toDays ≤ 0
  · have eA : Task.urgencyMatches (d.toDays - today.toDays) (some 0) = true := by
      simp [Task.urgencyMatches, hA]
    simp only [Task.URGENCY_LEVELS, List.find?, e1, eA]
    rw [pickFst, if_pos (by omega)]; rfl
  · have eA : Task.urgencyMatches (d.toDays - today.toDays) (some 0) = false := by
      simp only [Task.urgencyMatches, decide_eq_false_iff_not]
      omega
    by_cases hB : d.toDays - today.toDays ≤ 1
    · have eB : Task.urgencyMatches (d.toDays - today.toDays) (some 1) = true := by
        simp [Task.urgencyMatches, hB]
      simp only [Task.URGENCY_LEVELS, List.find?, e1, eA, eB]
      rw [pickFst, if_pos (by omega)]; rfl
    · have eB : Task.urgencyMatches (d.toDays - today.toDays) (some 1) = false := by
        simp only [Task.urgencyMatches, decide_eq_false_iff_not]
        omega
      by_cases hC : d.toDays - today.toDays ≤ 3
      · have eC : Task.urgencyMatches (d.toDays - today.toDays) (some 3) = true := by
          simp [Task.urgencyMatches, hC]
        simp only [Task.URGENCY_LEVELS, List.find?, e1, eA, eB, eC]
        rw [pickFst, if_pos (by omega)]; rfl
      · have eC : Task.urgencyMatches (d.toDays - today.toDays) (some 3) = false := by
          simp only [Task.urgencyMatches, decide_eq_false_iff_not]
          omega
        by_cases hD : d.toDays - today.toDays ≤ 7
        · have eD : Task.urgencyMatches (d.toDays - today.toDays) (some 7) = true := by
            simp [Task.urgencyMatches, hD]
          simp only [Task.URGENCY_LEVELS, List.find?, e1, eA, eB, eC, eD]
          rw [pickFst, if_pos (by omega)]; rfl
        · have eD : Task.urgencyMatches (d.toDays - today.toDays) (some 7) = false := by
            simp only [Task.urgencyMatches, decide_eq_false_iff_not]
            omega
          by_cases hE : d.toDays - today.toDays ≤ 14
          · have eE : Task.urgencyMatches (d.toDays - today.toDays) (some 14) = true := by
              simp [Task.urgencyMatches, hE]
            simp only [Task.URGENCY_LEVELS, List.find?, e1, eA, eB, eC, eD, eE]
            rw [pickFst, if_neg (by omega), if_pos (by omega)]; rfl
          · have eE : Task.urgencyMatches (d.toDays - today.toDays) (some 14) = false := by
              simp only [Task.urgencyMatches, decide_eq_false_iff_not]
              omega
            have eF : Task.urgencyMatches (d.toDays - today.toDays) none = true := rfl
            simp only [Task.URGENCY_LEVELS, List.find?, e1, eA, eB, eC, eD, eE, eF]
            rw [pickFst, if_neg (by omega), if_neg (by omega)]; rfl

/-- C1: for a validated well-formed due date the final priority of the
reconciler's deadline stage follows the urgency table — overdue forces 高
together with the distinct overdue (期限切れ) warning; 0–7 remaining days
give 高, 8–14 give 中, and more than 14 give 低. -/
theorem c1_deadline_urgency (today d : Date) (s current : String)
    (h : parseYMD s = some d) :
    (d.toDays - today.toDays < 0 →
      ResultValidator.validateDeadlinePriority today s current =
        ("高", [ResultValidator.overdueMsg (d.toDays - today.toDays) current]) ∧
      containsSubstr (ResultValidator.overdueMsg (d.toDays - today.toDays) current)
        "期限切れ" = true) ∧
    (0 ≤ d.toDays - today.toDays → d.toDays - today.toDays ≤ 7 →
      (ResultValidator.validateDeadlinePriority today s current).1 = "高") ∧
    (7 < d.toDays - today.toDays → d.toDays - today.toDays ≤ 14 →
      (ResultValidator.validateDeadlinePriority today s current).1 = "中") ∧
    (14 < d.toDays - today.toDays →
      (ResultValidator.validateDeadlinePriority today s current).1 = "低") := by
  refine ⟨fun hneg => ⟨?_, ?_⟩, fun h0 h7 => ?_, fun h7 h14 => ?_, fun h14 => ?_⟩
  · unfold ResultValidator.validateDeadlinePriority
    rw [h]
    dsimp only
    rw [if_pos hneg]
    rfl
  · unfold ResultValidator.overdueMsg
    exact containsSubstr_append_left (containsSubstr_append_left
      (containsSubstr_append_left (containsSubstr_append_left
        (containsSubstr_append_left (containsSubstr_append_left (by decide))))))
  · rw [vdp_priority_nonneg today s current d h (by omega), if_pos h7]
  · rw [vdp_priority_nonneg today s current d h (by omega), if_neg (by omega),
      if_pos h14]
  · rw [vdp_priority_nonneg today s current d h (by omega), if_neg (by omega),
      if_neg (by omega)]

/-- Witness for C1: due date 2024-03-20 seen from 2024-03-25 is five days
overdue, so the priority is forced to 高 with the overdue warning. -/
theorem c1_witness :
    parseYMD "2024-03-20" = some ⟨2024, 3, 20⟩ ∧
    Date.toDays ⟨2024, 3, 20⟩ - Date.toDays ⟨2024, 3, 25⟩ < 0 ∧
    ResultValidator.validateDeadlinePriority ⟨2024, 3, 25⟩ "2024-03-20" "低" =
      ("高", [ResultValidator.overdueMsg
        (Date.toDays ⟨2024, 3, 20⟩ - Date.toDays ⟨2024, 3, 25⟩) "低"]) :=
  ⟨by decide, by decide,
    ((c1_deadline_urgency ⟨2024, 3, 25⟩ ⟨2024, 3, 20⟩ "2024-03-20" "低"
      (by decide)).1 (by decide)).1⟩

/-- Witness for C7: the degraded ensemble evaluated at a concrete text. -/
theorem c7_witness :
    (EnsembleModel.estimateCategory (fun _ => none) "なにもない").categories ≠ [] ∧
    (EnsembleModel.estimatePriority (fun _ => none) "なにもない").priority = "高" :=
  ⟨(c7_total_signal_loss "なにもない").1, (c7_total_signal_loss "なにもない").2.2.2.1⟩

/-- Every result of the deadline-marker loop carries confidence 1. -/
theorem tryMarker_conf {now : Date} {text : String} {p : TextParser.DatePattern}
    {r : TextParser.DateExtraction}
    (h : TextParser.tryPatternWithMarker now text p = some r) : r.confidence = 1 := by
  simp only [TextParser.tryPatternWithMarker, Option.bind_eq_some,
    Option.map_eq_some'] at h
  obtain ⟨sl, -, g, -, ds, -, hr⟩ := h
  rw [← hr]

/-- Every result of the bare-pattern loop carries confidence 0.8. -/
theorem tryPlain_conf {now : Date} {text : String} {p : TextParser.DatePattern}
    {r : TextParser.DateExtraction}
    (h : TextParser.tryPatternPlain now text p = some r) : r.confidence = mkRat 8 10 := by
  simp only [TextParser.tryPatternPlain, Option.bind_eq_some, Option.map_eq_some'] at h
  obtain ⟨g, -, ds, -, hr⟩ := h
  rw [← hr]

/-- A property preserved by every element survives `firstSome`. -/
theorem firstSome_elim {α β : Type} {f : α → Option β} {P : β → Prop}
    (hf : ∀ a r, f a = some r → P r) :
    ∀ (l : List α) (r : β), TextParser.firstSome f l = some r → P r := by
  intro l
  induction l with
  | nil =>
    intro r h
    exact Option.noConfusion h
  | cons x xs ih =>
    intro r h
    unfold TextParser.firstSome at h
    cases hx : f x with
    | some v =>
      rw [hx] at h
      injection h with h2
      exact h2 ▸ hf x v hx
    | none =>
      rw [hx] at h
      exact ih r h

/-- C9 counterexample: `"2024-03-20"` is an exact absolute date with no
deadline marker; the claimed base confidence for exact dates is 1.0, but the
code reports the flat no-marker confidence 0.8. -/
theorem c9_counterexample :
    TextParser.extractDate ⟨2025, 1, 1⟩ "2024-03-20" =
      some { date := "2024-03-20", remaining := "", confidence := mkRat 8 10 } ∧
    (mkRat 8 10 : ℚ) ≠ 1 := by
  exact ⟨by decide, by decide⟩

/-- C9 (amended): `_extract_date` first tries every pattern combined with a
deadline marker and reports flat confidence 1.0 on success; only when that
whole phase fails does it try the bare patterns, reporting flat confidence
0.8 — there are no per-pattern base confidences and no +0.1 boost
arithmetic. -/
theorem c9_two_phase_confidence (now : Date) (text : String) :
    (∀ r, TextParser.extractDateWithMarker now text = some r →
      TextParser.extractDate now text = some r ∧ r.confidence = 1) ∧
    (TextParser.extractDateWithMarker now text = none →
      TextParser.extractDate now text = TextParser.extractDateNoMarker now text) ∧
    (∀ r, TextParser.extractDateNoMarker now text = some r →
      r.confidence = mkRat 8 10) := by
  refine ⟨fun r hr => ⟨?_, ?_⟩, fun hn => ?_, fun r hr => ?_⟩
  · unfold TextParser.extractDate
    rw [hr]
  · exact firstSome_elim (fun p v h => tryMarker_conf h) TextParser.datePatterns r hr
  · unfold TextParser.extractDate
    rw [hn]
  · exact firstSome_elim (fun p v h => tryPlain_conf h) TextParser.datePatterns r hr

/-- Witness for C9: with the marker までに present, the phase-one result is
returned at confidence 1. -/
theorem c9_witness :
    TextParser.extractDate ⟨2024, 3, 25⟩ "3月5日までに提出" =
      some { date := "2024-03-05", remaining := "に提出", confidence := 1 } :=
  ((c9_two_phase_confidence ⟨2024, 3, 25⟩ "3月5日までに提出").1
    { date := "2024-03-05", remaining := "に提出", confidence := 1 } (by decide)).1

/-- Witness for C6: one provider down, two up, at concrete scores. -/
theorem c6_witness :
    EnsembleModel.getSimilarity
      (fun p => match p with
        | EnsembleModel.Provider.laser => none
        | EnsembleModel.Provider.word2vec => some (fun _ _ => (mkRat 8 10 : ℚ))
        | EnsembleModel.Provider.fasttext => some (fun _ _ => (mkRat 6 10 : ℚ)))
      "a" "b" = mkRat 72 100 := by
  have h := (c6_weighted_similarity
    (fun p => match p with
      | EnsembleModel.Provider.laser => none
      | EnsembleModel.Provider.word2vec => some (fun _ _ => (mkRat 8 10 : ℚ))
      | EnsembleModel.Provider.fasttext => some (fun _ _ => (mkRat 6 10 : ℚ)))
    "a" "b").2 ⟨.word2vec, rfl⟩
  rw [h]
  simp only [EnsembleModel.weights, List.filterMap_cons, List.filterMap_nil,
    List.filter_cons, List.filter_nil, Option.map_some', Option.map_none',
    Option.isSome_some, Option.isSome_none, List.map_cons, List.map_nil,
    List.sum_cons, List.sum_nil]
  norm_num [Rat.mkRat_eq_div]

end TaskBot
